import Mathlib

/-!
# The gospeccy console (`src/console.go`)

A shallow embedding of the interactive console of gospeccy.  Go strings are
byte sequences; every call the console makes into a collaborator (the terminal,
the line editor, the application, the evaluator, a channel) is recorded, in
program order, as an `Event` of a trace.
-/

namespace Console

/-! ## Strings -/

/-- A Go string: its bytes, in order.  `len` is `List.length`. -/
abbrev GoString := List Nat

/-- The bytes of an ASCII literal of the source. -/
def str (s : String) : GoString := s.toList.map Char.toNat

/-- The byte `'\n'`. -/
abbrev NL : Nat := 10

/-- The byte `' '`. -/
abbrev SP : Nat := 32

/-- The byte `'\r'`. -/
abbrev CR : Nat := 13

/-- Source constant `PROMPT = "gospeccy> "`. -/
def PROMPT : GoString := str "gospeccy> "

/-- Source constant `PROMPT_EMPTY = "          "`. -/
def PROMPT_EMPTY : GoString := str "          "

/-- Source constant `STARTUP_SCRIPT = "startup"`. -/
def STARTUP_SCRIPT : GoString := str "startup"

/-! ## Collaborators and the trace -/

/-- An `os.Error`, known by the text its `String()` returns. -/
structure Error where
  text : GoString
  deriving DecidableEq, Repr

/-- A compiled `eval.Code`, known by a handle. -/
structure Code where
  handle : Nat
  deriving DecidableEq, Repr

/-- One argument of a `Printf`-style call. -/
inductive Arg where
  | s (text : GoString)
  | e (err : Error)
  deriving DecidableEq, Repr

/-- The channels of `readCode` and `runConsole`. -/
inductive Chan where
  | readCodePause
  | readCodeTerminate
  | consolePause
  | consoleTerminate
  | code
  | no_more_code
  | readline_channel
  deriving DecidableEq, Repr

/-- A value sent on a channel. -/
inductive Msg where
  | byte (b : Nat)
  | text (t : GoString)
  | nilLine
  deriving DecidableEq, Repr

/-- One observable action of the console, in the order the source performs them. -/
inductive Event where
  /-- Bytes written to `os.Stdout` by `fmt.Printf` / `fmt.Println`. -/
  | stdout (text : GoString)
  | OnNewLine
  | Redisplay
  | FreeLineState
  | CleanupAfterSignal
  | ResizeTerminal
  | AddHistory (line : GoString)
  | InstallSignalHandler
  | UninstallSignalHandler
  /-- The call `app.PrintfMsg(format, args...)`. -/
  | PrintfMsg (format : GoString) (args : List Arg)
  | RequestExit
  | Compile (sourceCode : GoString)
  | Run (code : Code)
  | ReadFile (fileName : GoString)
  | NewEventLoop
  | DeleteEventLoop
  /-- The call `eval.NewWorld()`. -/
  | NewWorld
  /-- The call `w.DefineVar(name, funcType, funcValue)`. -/
  | DefineVar (name : GoString)
  /-- A send `c <- v`. -/
  | send (c : Chan) (v : Msg)
  /-- A receive `<-c` whose value is dropped. -/
  | recv (c : Chan)
  /-- A receive `x := <-c` that got `v`. -/
  | recvVal (c : Chan) (v : Msg)
  /-- The statement `go readCode(app, code_chan, no_more_code)`. -/
  | goReadCode
  /-- The statement `go func() { ... }()` of `readCode`. -/
  | goLineReader
  deriving DecidableEq, Repr

/-- The texts written to `os.Stdout` by a trace, in order. -/
def written : List Event → List GoString
  | [] => []
  | Event.stdout t :: es => t :: written es
  | _ :: es => written es

/-- The part of a `spectrum.Application` the console queries. -/
structure Application where
  /-- What `app.TerminationInProgress()` returns. -/
  TerminationInProgress : Bool
  deriving DecidableEq, Repr

/-! ## `consoleMessageOutput.PrintfMsg` -/

/-- The state `PrintfMsg` works on: the global `havePrompt` and the trace so far. -/
structure Terminal where
  havePrompt : Bool
  out : List Event
  deriving DecidableEq, Repr

/-- Append one event to the trace. -/
def Terminal.emit (t : Terminal) (e : Event) : Terminal :=
  { t with out := t.out ++ [e] }

/-- The rendering of `fmt.Printf("\r%s\r", PROMPT_EMPTY)`. -/
def eraseSeq : GoString := [CR] ++ PROMPT_EMPTY ++ [CR]

/-- Method `(*consoleMessageOutput).PrintfMsg`.  `sprintf format a` is the text
`fmt.Printf(format, a)` writes; `app` is the global `app` (`none` is `nil`).
`havePrompt` is read twice, each time under `havePrompt_mutex`, and the mutex
is free in between (source lines 593-605): `between` is the last value another
goroutine (the line reader, the pause branch of `readCode`) wrote to
`havePrompt` in that window, `none` when none did. -/
def consoleMessageOutput.PrintfMsg (sprintf : GoString → List Arg → GoString)
    (app : Option Application) (between : Option Bool) (t : Terminal) (format : GoString)
    (a : List Arg) : Terminal :=
  let t := if t.havePrompt && decide (PROMPT.length > 0) then
      t.emit (Event.stdout eraseSeq)
    else t
  let appendNewLine : Bool :=
    if format.length == 0 || format.getD (format.length - 1) 0 != NL then true else false
  let t := t.emit (Event.stdout (sprintf format a))
  let t := if appendNewLine then t.emit (Event.stdout [NL]) else t
  let t := { t with havePrompt := between.getD t.havePrompt }
  if t.havePrompt then
    if app.isNone || !(app.elim false Application.TerminationInProgress) then
      (t.emit Event.OnNewLine).emit Event.Redisplay
    else
      { t with havePrompt := false }
  else t

/-! ## `handler_t.HandleSignal` -/

/-- A `signal.UnixSignal`: one of the signals `console.go` or its specification
names, or another one (by number). -/
inductive UnixSignal where
  | SIGHUP
  | SIGINT
  | SIGQUIT
  | SIGALRM
  | SIGTERM
  | SIGTSTP
  | SIGTTIN
  | SIGTTOU
  | SIGWINCH
  | other (n : Nat)
  deriving DecidableEq, Repr

/-- A `signal.Signal`: a `signal.UnixSignal`, or a value of another type. -/
inductive Signal where
  | UnixSignal (ss : UnixSignal)
  | other
  deriving DecidableEq, Repr

/-- Method `handler_t.HandleSignal`: the calls it makes, in order. -/
def handler_t.HandleSignal (s : Signal) : List Event :=
  match s with
  | Signal.UnixSignal ss =>
    match ss with
    | UnixSignal.SIGQUIT | UnixSignal.SIGTERM | UnixSignal.SIGALRM | UnixSignal.SIGTSTP
    | UnixSignal.SIGTTIN | UnixSignal.SIGTTOU =>
      [Event.CleanupAfterSignal]
    | UnixSignal.SIGINT =>
      [Event.FreeLineState, Event.CleanupAfterSignal]
    | UnixSignal.SIGWINCH =>
      [Event.ResizeTerminal]
    | _ => []
  | _ => []

/-! ## The console state and the external operations -/

/-- The operations of the collaborators `console.go` calls, over the state `σ`
of everything outside the console (evaluator session, application, files). -/
structure Env (σ : Type) where
  /-- The call `eval.NewWorld()`. -/
  NewWorld : σ → σ
  /-- The call `w.DefineVar(name, funcType, funcValue)`. -/
  DefineVar : σ → GoString → σ
  /-- The call `w.Compile(sourceCode)`. -/
  Compile : σ → GoString → σ × Except Error Code
  /-- The call `code.Run()`. -/
  Run : σ → Code → σ × Option Error
  /-- The call `ioutil.ReadFile(spectrum.ScriptPath(fileName))`. -/
  ReadFile : σ → GoString → Except Error GoString
  /-- The call `app.TerminationInProgress()`. -/
  TerminationInProgress : σ → Bool
  /-- The test `closed(app.HasTerminated)`. -/
  HasTerminated : σ → Bool
  /-- The field `app.Verbose`. -/
  Verbose : σ → Bool

/-- The globals of `console.go` that `runConsole` and its callees use, the
outside world, and the trace so far. -/
structure State (σ : Type) where
  world : σ
  /-- Whether the global `app` is non-nil. -/
  app : Bool
  help_keys : List GoString
  help_vals : List GoString
  out : List Event

/-- Append one event to the trace. -/
def State.emit {σ : Type} (s : State σ) (e : Event) : State σ :=
  { s with out := s.out ++ [e] }

/-! ## `printHelp` -/

/-- First loop of `printHelp` (source lines 53-57), from the current `maxKeyLen`. -/
def maxKeyLenLoop : List GoString → Nat → Nat
  | [], maxKeyLen => maxKeyLen
  | key :: keys, maxKeyLen =>
    maxKeyLenLoop keys (if key.length > maxKeyLen then key.length else maxKeyLen)

/-- Inner loop of `printHelp` (source lines 61-63):
`for j := len(help_keys[i]); j < maxKeyLen; j++ { fmt.Fprintf(&buf, " ") }`. -/
def padLoop (j maxKeyLen : Nat) (buf : GoString) : GoString :=
  if j < maxKeyLen then padLoop (j + 1) maxKeyLen (buf ++ str " ") else buf
termination_by maxKeyLen - j

/-- Second loop of `printHelp` (source lines 59-65) over the entries not yet
visited; `none` is the index-out-of-range panic of `help_vals[i]`. -/
def helpLoop (maxKeyLen : Nat) : List GoString → List GoString → GoString → Option GoString
  | [], _, buf => some buf
  | _ :: _, [], _ => none
  | key :: keys, val :: vals, buf =>
    let buf := buf ++ str "    " ++ key
    let buf := padLoop key.length maxKeyLen buf
    let buf := buf ++ str "  " ++ val ++ [NL]
    helpLoop maxKeyLen keys vals buf

/-- Function `printHelp`; `none` is a panic. -/
def printHelp {σ : Type} (s : State σ) : Option (State σ) :=
  let buf := str "\nAvailable commands:\n"
  let maxKeyLen := maxKeyLenLoop s.help_keys 1
  match helpLoop maxKeyLen s.help_keys s.help_vals buf with
  | none => none
  | some buf => some (s.emit (Event.PrintfMsg (str "%s\n") [Arg.s buf]))

/-! ## `defineFunctions` -/

/-- One block of `defineFunctions`: `w.DefineVar(name, ...)`, then the pushes
onto `help_keys` and `help_vals`. -/
def defineFunction {σ : Type} (env : Env σ) (s : State σ) (name key val : String) : State σ :=
  let s := { s.emit (Event.DefineVar (str name)) with world := env.DefineVar s.world (str name) }
  let s := { s with help_keys := s.help_keys ++ [str key] }
  { s with help_vals := s.help_vals ++ [str val] }

/-- Function `defineFunctions`. -/
def defineFunctions {σ : Type} (env : Env σ) (s : State σ) : State σ :=
  let s := defineFunction env s "help" "help()" "This help"
  let s := defineFunction env s "exit" "exit()" "Terminate this program"
  let s := defineFunction env s "reset" "reset()" "Reset the emulated machine"
  let s := defineFunction env s "load" "load(path string)" "Load state from file (SNA format)"
  let s := defineFunction env s "save" "save(path string)" "Save state to file (SNA format)"
  let s := defineFunction env s "scale" "scale(n uint)" "Change the display scale"
  let s := defineFunction env s "fps" "fps(n float)" "Change the display refresh frequency"
  let s := defineFunction env s "ULA_accuracy" "ULA_accuracy(accurateEmulation bool)"
    "Enable/disable accurate emulation of screen bitmap and screen attributes"
  let s := defineFunction env s "sound" "sound(enable bool)" "Enable or disable sound"
  let s := defineFunction env s "wait" "wait(milliseconds uint)"
    "Wait the specified amount of time before issuing the next command"
  let s := defineFunction env s "script" "script(scriptName string)"
    "Load and evaluate the specified Go script"
  defineFunction env s "optionalScript" "optionalScript(scriptName string)"
    "Load (if found) and evaluate the specified Go script"

/-! ## `run` and `runScript` -/

/-- Function `run`. -/
def run {σ : Type} (env : Env σ) (s : State σ) (sourceCode : GoString) : State σ :=
  let sourceCode := sourceCode ++ str "\n"
  let s := s.emit (Event.Compile sourceCode)
  match env.Compile s.world sourceCode with
  | (w, Except.error err) =>
    ({ s with world := w }).emit (Event.PrintfMsg (str "%s") [Arg.e err])
  | (w, Except.ok code) =>
    let s := ({ s with world := w }).emit (Event.Run code)
    match env.Run w code with
    | (w, some err) =>
      ({ s with world := w }).emit (Event.PrintfMsg (str "%s") [Arg.e err])
    | (w, none) => { s with world := w }

/-- Function `runScript`: the new state and the returned `os.Error` (`none` is `nil`). -/
def runScript {σ : Type} (env : Env σ) (s : State σ) (scriptName : GoString)
    (optional : Bool) : State σ × Option Error :=
  let fileName := scriptName ++ str ".go"
  let s := s.emit (Event.ReadFile fileName)
  match env.ReadFile s.world fileName with
  | Except.error err => if !optional then (s, some err) else (s, none)
  | Except.ok data => (run env s data, none)

/-! ## `runConsole` -/

/-- The case a `select` of the `runConsole` loop takes. -/
inductive ConsoleSelect where
  | Pause
  | Terminate
  | code (code : GoString)
  | no_more_code
  deriving DecidableEq, Repr

/-- The `for { select { ... } }` loop of `runConsole` (source lines 540-569) over
the cases its `select` takes, in order.  When the cases run out the loop is
waiting in `select`.  `none` is a panic. -/
def consoleLoop {σ : Type} (env : Env σ) (exitAppIfEndOfInput : Bool) :
    List ConsoleSelect → State σ → Option (State σ)
  | [], s => some s
  | ConsoleSelect.Pause :: rest, s =>
    let s := s.emit (Event.recv Chan.consolePause)
    let s := s.emit (Event.send Chan.consolePause (Msg.byte 0))
    consoleLoop env exitAppIfEndOfInput rest s
  | ConsoleSelect.Terminate :: _, s =>
    let s := s.emit (Event.recv Chan.consoleTerminate)
    let s := if env.Verbose s.world then
        s.emit (Event.PrintfMsg (str "console loop: exit") [])
      else s
    some (s.emit (Event.send Chan.consoleTerminate (Msg.byte 0)))
  | ConsoleSelect.code code :: rest, s =>
    let s := s.emit (Event.recvVal Chan.code (Msg.text code))
    match (if code.length > 0 then some (run env s code) else printHelp s) with
    | none => none
    | some s =>
      let s := s.emit (Event.send Chan.code (Msg.text (str "<next>")))
      consoleLoop env exitAppIfEndOfInput rest s
  | ConsoleSelect.no_more_code :: rest, s =>
    let s := s.emit (Event.recv Chan.no_more_code)
    let s := if exitAppIfEndOfInput then s.emit Event.RequestExit
      else s.emit Event.DeleteEventLoop
    consoleLoop env exitAppIfEndOfInput rest s

/-- Modelled from the spec: `EventLoop.Delete` of package `spectrum`, which is
not under `src/`.  The spec has end of input "simply stop the console loop
while leaving the Application running", and a loop stops when the Application
signals `Terminate` ("acknowledge and exit unconditionally"), which pause
requests may precede.  So the cases offered to the `select` of a loop that
has called `evtLoop.Delete()` are `pauses` pause requests, then `Terminate`,
then `rest`; the Application is not asked to exit. -/
def EventLoop.Delete (pauses : Nat) (rest : List ConsoleSelect) : List ConsoleSelect :=
  List.replicate pauses ConsoleSelect.Pause ++ ConsoleSelect.Terminate :: rest

/-- The usage hint of `runConsole`. -/
def HINT : GoString := str "Hint: Input an empty line to see available commands"

/-- Function `runConsole`, with the cases its `select` takes.  `none` is a panic. -/
def runConsole {σ : Type} (env : Env σ) (exitAppIfEndOfInput : Bool)
    (sel : List ConsoleSelect) (s : State σ) : Option (State σ) :=
  if s.app then none
  else
    let s := { s with app := true }
    let s := { s.emit Event.NewWorld with world := env.NewWorld s.world }
    let s := defineFunctions env s
    match runScript env s STARTUP_SCRIPT false with
    | (s, some err) =>
      let s := s.emit (Event.PrintfMsg (str "%s") [Arg.e err])
      some (s.emit Event.RequestExit)
    | (s, none) =>
      if env.TerminationInProgress s.world || env.HasTerminated s.world then some s
      else
        let s := s.emit (Event.PrintfMsg HINT [])
        let s := s.emit Event.goReadCode
        let s := s.emit Event.NewEventLoop
        consoleLoop env exitAppIfEndOfInput sel s

/-! ## `readCode` -/

/-- The case a `select` of the `readCode` loop takes; `line none` is the `nil`
line pointer (end of input). -/
inductive ReadCodeSelect where
  | Pause
  | Terminate
  | line (lineP : Option GoString)
  deriving DecidableEq, Repr

/-- One turn of the `readCode` loop. -/
structure ReadCodeTurn where
  /-- The last value another goroutine (the line reader, `PrintfMsg`) wrote to
  `havePrompt` since the previous turn, `none` when none did. -/
  havePromptWrite : Option Bool
  /-- The case the `select` takes. -/
  taken : ReadCodeSelect
  deriving DecidableEq, Repr

/-- The `for { select { ... } }` loop of `readCode` (source lines 450-493) over
its turns.  `TrimSpace` is `strings.TrimSpace`, `verbose` is
`evtLoop.App().Verbose`; `havePrompt` is shared, so each turn starts from what
the other goroutines last wrote to it. -/
def readCodeLoop (TrimSpace : GoString → GoString) (verbose : Bool) :
    List ReadCodeTurn → Terminal → Terminal
  | [], t => t
  | { havePromptWrite := w, taken := ReadCodeSelect.Pause } :: rest, t =>
    let t := { t with havePrompt := w.getD t.havePrompt }
    let t := t.emit (Event.recv Chan.readCodePause)
    let t := t.emit Event.UninstallSignalHandler
    let t := if t.havePrompt && decide (PROMPT.length > 0) then
        { t.emit (Event.stdout eraseSeq) with havePrompt := false }
      else t
    let t := t.emit Event.FreeLineState
    let t := t.emit Event.CleanupAfterSignal
    let t := t.emit (Event.send Chan.readCodePause (Msg.byte 0))
    readCodeLoop TrimSpace verbose rest t
  | { havePromptWrite := w, taken := ReadCodeSelect.Terminate } :: _, t =>
    let t := { t with havePrompt := w.getD t.havePrompt }
    let t := t.emit (Event.recv Chan.readCodeTerminate)
    let t := if verbose then t.emit (Event.PrintfMsg (str "readCode loop: exit") []) else t
    t.emit (Event.send Chan.readCodeTerminate (Msg.byte 0))
  | { havePromptWrite := w, taken := ReadCodeSelect.line none } :: rest, t =>
    let t := { t with havePrompt := w.getD t.havePrompt }
    let t := t.emit (Event.recvVal Chan.readline_channel Msg.nilLine)
    let t := t.emit (Event.send Chan.no_more_code (Msg.byte 0))
    let t := t.emit Event.DeleteEventLoop
    readCodeLoop TrimSpace verbose rest t
  | { havePromptWrite := w, taken := ReadCodeSelect.line (some lineP) } :: rest, t =>
    let t := { t with havePrompt := w.getD t.havePrompt }
    let t := t.emit (Event.recvVal Chan.readline_channel (Msg.text lineP))
    let line := TrimSpace lineP
    let t := if line.length > 0 then t.emit (Event.AddHistory line) else t
    let t := t.emit (Event.send Chan.code (Msg.text line))
    let t := t.emit (Event.recv Chan.code)
    let t := t.emit (Event.send Chan.readline_channel Msg.nilLine)
    readCodeLoop TrimSpace verbose rest t

/-- Function `readCode`, with the turns of its loop. -/
def readCode (TrimSpace : GoString → GoString) (verbose : Bool)
    (sel : List ReadCodeTurn) (t : Terminal) : Terminal :=
  let t := t.emit Event.InstallSignalHandler
  let t := t.emit Event.goLineReader
  let t := t.emit Event.NewEventLoop
  readCodeLoop TrimSpace verbose sel t


/-! ## What the `runConsole` loop dispatches -/

/-- What an event of the `runConsole` loop means for the dispatch of lines. -/
inductive Dispatch where
  /-- A line was taken from `code_chan`. -/
  | taken (line : GoString)
  /-- Function `run` was entered with this source text (newline appended). -/
  | run (sourceCode : GoString)
  /-- Function `printHelp` printed its listing. -/
  | printHelp
  /-- The acknowledgment was sent on `code_chan`. -/
  | acknowledged
  deriving DecidableEq, Repr

/-- The dispatch step an event stands for.  `w.Compile` is the first call of
`run` and is called nowhere else; the format `"%s\n"` is used by `printHelp`
only. -/
def dispatchOf : Event → Option Dispatch
  | Event.recvVal Chan.code (Msg.text line) => some (Dispatch.taken line)
  | Event.Compile sourceCode => some (Dispatch.run sourceCode)
  | Event.PrintfMsg format _ => if format = str "%s\n" then some Dispatch.printHelp else none
  | Event.send Chan.code _ => some Dispatch.acknowledged
  | _ => none

/-! ## Sample collaborators -/

/-- A world in which every startup script can be read (its text is `exit()`)
and nothing is terminating; `compiles` and `runs` say whether compilation and
execution succeed. -/
def sampleEnv (compiles runs : Bool) : Env Unit where
  NewWorld := fun w => w
  DefineVar := fun w _ => w
  Compile := fun w _ =>
    if compiles then (w, Except.ok { handle := 0 })
    else (w, Except.error { text := str "compile error" })
  Run := fun w _ => if runs then (w, none) else (w, some { text := str "run error" })
  ReadFile := fun _ _ => Except.ok (str "exit()")
  TerminationInProgress := fun _ => false
  HasTerminated := fun _ => false
  Verbose := fun _ => false

/-- The state before `runConsole` is called: `app` is nil, the registry is empty. -/
def initialState : State Unit :=
  { world := (), app := false, help_keys := [], help_vals := [], out := [] }

/-- A registry of two commands whose keys differ in length. -/
def sampleRegistry : State Unit :=
  { initialState with
    help_keys := [str "help()", str "load(path string)"],
    help_vals := [str "This help", str "Load state from file (SNA format)"] }

/-- The events of `runConsole` up to the end of `defineFunctions`. -/
def definitionEvents : List Event :=
  [Event.NewWorld, Event.DefineVar (str "help"), Event.DefineVar (str "exit"),
   Event.DefineVar (str "reset"), Event.DefineVar (str "load"), Event.DefineVar (str "save"),
   Event.DefineVar (str "scale"), Event.DefineVar (str "fps"),
   Event.DefineVar (str "ULA_accuracy"), Event.DefineVar (str "sound"),
   Event.DefineVar (str "wait"), Event.DefineVar (str "script"),
   Event.DefineVar (str "optionalScript")]

/-- The trace `new` extends the trace `old` by events among which `bad` does not occur. -/
def ExtendsWithout (bad : Event) (old new : List Event) : Prop :=
  ∃ added, new = old ++ added ∧ bad ∉ added

/-! ## The three goroutines and their channels

The line-reader goroutine, the `readCode` loop and the `runConsole` loop as one
labelled transition system.  A state holds where each goroutine stands and the
shared variable `havePrompt`; a label is one step of one goroutine, or one
communication on an unbuffered channel (sender and receiver move together).
The Application may offer `Pause` and `Terminate` to a loop whenever that loop
is in its `select`, and takes every acknowledgment.
-/

/-- Where the line-reader goroutine (source lines 420-447) stands. -/
inductive ReaderPc where
  | notStarted
  /-- Line 421, `app.SetMessageOutput(&consoleMessageOutput{})`. -/
  | setOutput
  /-- Lines 424-426, `havePrompt = true`. -/
  | setPrompt
  /-- Lines 428-430, `if app.TerminationInProgress() { break }`. -/
  | checkTermination
  /-- Line 432, `line := readline.ReadLine(PROMPT)`. -/
  | ReadLine
  /-- Lines 434-436, `havePrompt = false`. -/
  | clearPrompt (line : Option GoString)
  /-- Line 438, `readline_channel <- line`. -/
  | send (line : Option GoString)
  /-- Line 442, `<-readline_channel`. -/
  | waitAck
  /-- Line 446, `app.SetMessageOutput(prevMsgOut)`. -/
  | restoreOutput
  | done
  deriving DecidableEq, Repr

/-- Where `readCode` (source lines 414-494) stands. -/
inductive ReadCodePc where
  | notStarted
  /-- Lines 415-449, up to `evtLoop := app.NewEventLoop()`. -/
  | start
  /-- Line 451, `select`. -/
  | select
  /-- Line 453, `spectrum.UninstallSignalHandler(handler)`. -/
  | pauseUninstall
  /-- Lines 455-460, the prompt is erased. -/
  | pauseErase
  /-- Lines 462-463, `readline.FreeLineState()`, `readline.CleanupAfterSignal()`. -/
  | pauseCleanup
  /-- Line 465, `evtLoop.Pause <- 0`. -/
  | pauseAck
  /-- Lines 468-471, up to `evtLoop.Terminate <- 0`. -/
  | terminateAck
  | returned
  /-- Line 477, `no_more_code <- 0`. -/
  | sendNoMoreCode
  /-- Line 478, `evtLoop.Delete()`. -/
  | deleteLoop
  /-- Lines 482-486, `strings.TrimSpace` and `readline.AddHistory`. -/
  | trim (lineP : GoString)
  /-- Line 488, `code <- line`. -/
  | sendCode (line : GoString)
  /-- Line 489, `<-code`. -/
  | waitCode
  /-- Line 491, `readline_channel <- nil`. -/
  | ackReader
  deriving DecidableEq, Repr

/-- Where `runConsole` (source lines 536-570) stands. -/
inductive ConsolePc where
  /-- Line 536, `go readCode(app, code_chan, no_more_code)`. -/
  | goReadCode
  /-- Line 539, `evtLoop := app.NewEventLoop()`. -/
  | newEventLoop
  /-- Line 541, `select`. -/
  | select
  /-- Line 543, `evtLoop.Pause <- 0`. -/
  | pauseAck
  /-- Lines 547-550, up to `evtLoop.Terminate <- 0`. -/
  | terminateAck
  | returned
  /-- Lines 555-559, `run(w, code)` or `printHelp()`. -/
  | dispatch (code : GoString)
  /-- Line 560, `code_chan <- "<next>"`. -/
  | ack
  /-- Lines 563-567, `app.RequestExit()` or `evtLoop.Delete()`. -/
  | endOfInput
  deriving DecidableEq, Repr

/-- A state of the three goroutines. -/
structure Sys where
  reader : ReaderPc
  readCode : ReadCodePc
  console : ConsolePc
  havePrompt : Bool
  deriving DecidableEq, Repr

/-- One step of the system. -/
inductive Label where
  /-- `runConsole` starts `readCode` (line 536). -/
  | goReadCode
  /-- `runConsole` creates its event loop (line 539). -/
  | consoleNewEventLoop
  /-- `readCode` installs the handler, starts the line reader and creates its
  event loop (lines 415-449). -/
  | readCodeStart
  /-- The line reader registers its message output (line 421). -/
  | readerSetOutput
  /-- The line reader sets `havePrompt` (lines 424-426). -/
  | readerSetPrompt
  /-- The line reader asks `app.TerminationInProgress()` and gets `terminating`
  (lines 428-430). -/
  | readerCheckTermination (terminating : Bool)
  /-- The call `readline.ReadLine(PROMPT)` is made and returns `line` (line 432). -/
  | ReadLine (line : Option GoString)
  /-- The line reader clears `havePrompt` (lines 434-436). -/
  | readerClearPrompt
  /-- The line reader sends `line` on `readline_channel` and the `select` of
  `readCode` receives it (lines 438 and 474). -/
  | deliver (line : Option GoString)
  /-- The line reader restores the message output (line 446). -/
  | readerRestoreOutput
  /-- `readCode` trims the line and adds it to the history (lines 482-486). -/
  | readCodeTrim
  /-- `readCode` sends on `no_more_code` and the `select` of `runConsole`
  receives (lines 477 and 562). -/
  | noMoreCode
  /-- `readCode` deletes its event loop and continues (lines 478-479). -/
  | readCodeDelete
  /-- `readCode` sends the line on `code` and the `select` of `runConsole`
  receives it (lines 488 and 553). -/
  | code (line : GoString)
  /-- `runConsole` runs the line or prints the help (lines 555-559). -/
  | dispatch
  /-- `runConsole` sends `"<next>"` on `code_chan` and `readCode` receives it
  (lines 560 and 489). -/
  | next
  /-- `readCode` sends nil on `readline_channel` and the line reader receives
  it (lines 491 and 442). -/
  | ackReader
  /-- The `select` of `readCode` receives from `evtLoop.Pause` (line 452). -/
  | readCodePause
  /-- `readCode` uninstalls the signal handler (line 453). -/
  | readCodeUninstall
  /-- `readCode` erases the prompt and clears `havePrompt` (lines 455-460). -/
  | readCodeErase
  /-- `readCode` frees the line state (lines 462-463). -/
  | readCodeCleanup
  /-- `readCode` acknowledges the pause (line 465). -/
  | readCodePauseAck
  /-- The `select` of `readCode` receives from `evtLoop.Terminate` (line 467). -/
  | readCodeTerminate
  /-- `readCode` acknowledges the termination and returns (lines 471-472). -/
  | readCodeTerminateAck
  /-- The `select` of `runConsole` receives from `evtLoop.Pause` (line 542). -/
  | consolePause
  /-- `runConsole` acknowledges the pause (line 543). -/
  | consolePauseAck
  /-- The `select` of `runConsole` receives from `evtLoop.Terminate` (line 545). -/
  | consoleTerminate
  /-- `runConsole` acknowledges the termination and returns (lines 550-551). -/
  | consoleTerminateAck
  /-- `runConsole` requests the exit or deletes its event loop (lines 563-567). -/
  | consoleEndOfInput
  deriving DecidableEq, Repr

/-- The step `l` from the state `s`; `none` when `l` cannot be taken in `s`. -/
def step (TrimSpace : GoString → GoString) (l : Label) (s : Sys) : Option Sys :=
  match l with
  | Label.goReadCode =>
    if s.console = ConsolePc.goReadCode ∧ s.readCode = ReadCodePc.notStarted then
      some { s with console := ConsolePc.newEventLoop, readCode := ReadCodePc.start }
    else none
  | Label.consoleNewEventLoop =>
    if s.console = ConsolePc.newEventLoop then some { s with console := ConsolePc.select }
    else none
  | Label.readCodeStart =>
    if s.readCode = ReadCodePc.start ∧ s.reader = ReaderPc.notStarted then
      some { s with readCode := ReadCodePc.select, reader := ReaderPc.setOutput }
    else none
  | Label.readerSetOutput =>
    if s.reader = ReaderPc.setOutput then some { s with reader := ReaderPc.setPrompt }
    else none
  | Label.readerSetPrompt =>
    if s.reader = ReaderPc.setPrompt then
      some { s with reader := ReaderPc.checkTermination, havePrompt := true }
    else none
  | Label.readerCheckTermination terminating =>
    if s.reader = ReaderPc.checkTermination then
      some { s with reader := if terminating then ReaderPc.restoreOutput else ReaderPc.ReadLine }
    else none
  | Label.ReadLine line =>
    if s.reader = ReaderPc.ReadLine then some { s with reader := ReaderPc.clearPrompt line }
    else none
  | Label.readerClearPrompt =>
    match s.reader with
    | ReaderPc.clearPrompt line => some { s with reader := ReaderPc.send line, havePrompt := false }
    | _ => none
  | Label.deliver line =>
    if s.reader = ReaderPc.send line ∧ s.readCode = ReadCodePc.select then
      match line with
      | none =>
        some { s with reader := ReaderPc.restoreOutput, readCode := ReadCodePc.sendNoMoreCode }
      | some lineP =>
        some { s with reader := ReaderPc.waitAck, readCode := ReadCodePc.trim lineP }
    else none
  | Label.readerRestoreOutput =>
    if s.reader = ReaderPc.restoreOutput then some { s with reader := ReaderPc.done }
    else none
  | Label.readCodeTrim =>
    match s.readCode with
    | ReadCodePc.trim lineP => some { s with readCode := ReadCodePc.sendCode (TrimSpace lineP) }
    | _ => none
  | Label.noMoreCode =>
    if s.readCode = ReadCodePc.sendNoMoreCode ∧ s.console = ConsolePc.select then
      some { s with readCode := ReadCodePc.deleteLoop, console := ConsolePc.endOfInput }
    else none
  | Label.readCodeDelete =>
    if s.readCode = ReadCodePc.deleteLoop then some { s with readCode := ReadCodePc.select }
    else none
  | Label.code line =>
    if s.readCode = ReadCodePc.sendCode line ∧ s.console = ConsolePc.select then
      some { s with readCode := ReadCodePc.waitCode, console := ConsolePc.dispatch line }
    else none
  | Label.dispatch =>
    match s.console with
    | ConsolePc.dispatch _ => some { s with console := ConsolePc.ack }
    | _ => none
  | Label.next =>
    if s.console = ConsolePc.ack ∧ s.readCode = ReadCodePc.waitCode then
      some { s with console := ConsolePc.select, readCode := ReadCodePc.ackReader }
    else none
  | Label.ackReader =>
    if s.readCode = ReadCodePc.ackReader ∧ s.reader = ReaderPc.waitAck then
      some { s with readCode := ReadCodePc.select, reader := ReaderPc.setPrompt }
    else none
  | Label.readCodePause =>
    if s.readCode = ReadCodePc.select then some { s with readCode := ReadCodePc.pauseUninstall }
    else none
  | Label.readCodeUninstall =>
    if s.readCode = ReadCodePc.pauseUninstall then
      some { s with readCode := ReadCodePc.pauseErase }
    else none
  | Label.readCodeErase =>
    if s.readCode = ReadCodePc.pauseErase then
      some { s with readCode := ReadCodePc.pauseCleanup,
                    havePrompt := if s.havePrompt && decide (PROMPT.length > 0) then false
                      else s.havePrompt }
    else none
  | Label.readCodeCleanup =>
    if s.readCode = ReadCodePc.pauseCleanup then some { s with readCode := ReadCodePc.pauseAck }
    else none
  | Label.readCodePauseAck =>
    if s.readCode = ReadCodePc.pauseAck then some { s with readCode := ReadCodePc.select }
    else none
  | Label.readCodeTerminate =>
    if s.readCode = ReadCodePc.select then some { s with readCode := ReadCodePc.terminateAck }
    else none
  | Label.readCodeTerminateAck =>
    if s.readCode = ReadCodePc.terminateAck then some { s with readCode := ReadCodePc.returned }
    else none
  | Label.consolePause =>
    if s.console = ConsolePc.select then some { s with console := ConsolePc.pauseAck }
    else none
  | Label.consolePauseAck =>
    if s.console = ConsolePc.pauseAck then some { s with console := ConsolePc.select }
    else none
  | Label.consoleTerminate =>
    if s.console = ConsolePc.select then some { s with console := ConsolePc.terminateAck }
    else none
  | Label.consoleTerminateAck =>
    if s.console = ConsolePc.terminateAck then some { s with console := ConsolePc.returned }
    else none
  | Label.consoleEndOfInput =>
    if s.console = ConsolePc.endOfInput then some { s with console := ConsolePc.select }
    else none

/-- The state when `runConsole` is about to start `readCode`. -/
def Sys.initial : Sys :=
  { reader := ReaderPc.notStarted, readCode := ReadCodePc.notStarted,
    console := ConsolePc.goReadCode, havePrompt := false }

/-- The state after the steps `ls` from `s`, in order; `none` when one of them
cannot be taken. -/
def exec (TrimSpace : GoString → GoString) : List Label → Sys → Option Sys
  | [], s => some s
  | l :: ls, s =>
    match step TrimSpace l s with
    | none => none
    | some s1 => exec TrimSpace ls s1

/-- The number of lines (not end of input) the line reader has delivered. -/
def delivered (ls : List Label) : Nat :=
  ls.countP (fun l => match l with
    | Label.deliver (some _) => true
    | _ => false)

/-- The number of lines `runConsole` has finished processing. -/
def dispatched (ls : List Label) : Nat :=
  ls.countP (fun l => decide (l = Label.dispatch))

/-- The number of acknowledgments `runConsole` has sent on `code_chan`. -/
def acknowledged (ls : List Label) : Nat :=
  ls.countP (fun l => decide (l = Label.next))

/-- The number of acknowledgments the line reader has received. -/
def released (ls : List Label) : Nat :=
  ls.countP (fun l => decide (l = Label.ackReader))

/-- How far the handshake for the line in flight has got: `d`, `p`, `a`, `r`
count the lines delivered, dispatched, acknowledged by `runConsole` and
acknowledged to the line reader. -/
def Handshake (s : Sys) (d p a r : Nat) : Prop :=
  (s.reader = ReaderPc.waitAck ↔
    ((∃ l, s.readCode = ReadCodePc.trim l) ∨ (∃ l, s.readCode = ReadCodePc.sendCode l) ∨
      s.readCode = ReadCodePc.waitCode ∨ s.readCode = ReadCodePc.ackReader)) ∧
  (s.readCode = ReadCodePc.waitCode ↔
    ((∃ c, s.console = ConsolePc.dispatch c) ∨ s.console = ConsolePc.ack)) ∧
  (if s.reader = ReaderPc.waitAck then
    if s.readCode = ReadCodePc.ackReader then d = r + 1 ∧ p = r + 1 ∧ a = r + 1
    else if s.console = ConsolePc.ack then d = r + 1 ∧ p = r + 1 ∧ a = r
    else d = r + 1 ∧ p = r ∧ a = r
  else d = r ∧ p = r ∧ a = r)

/-- The line reader has left its loop. -/
def ReaderFinished (s : Sys) : Prop :=
  s.reader = ReaderPc.restoreOutput ∨ s.reader = ReaderPc.done

/-- A sample interleaving: a line is read, delivered, dispatched and
acknowledged; the next read returns end of input, which is delivered. -/
def sampleSteps : List Label :=
  [Label.goReadCode, Label.consoleNewEventLoop, Label.readCodeStart,
   Label.readerSetOutput, Label.readerSetPrompt, Label.readerCheckTermination false,
   Label.ReadLine (some (str "reset()")), Label.readerClearPrompt,
   Label.deliver (some (str "reset()")), Label.readCodeTrim,
   Label.code (str "reset()"), Label.dispatch, Label.next, Label.ackReader,
   Label.readerSetPrompt, Label.readerCheckTermination false, Label.ReadLine none,
   Label.readerClearPrompt, Label.deliver none]

theorem lastByte_ne_NL_iff (format : GoString) :
    (format.length == 0 || format.getD (format.length - 1) 0 != NL) = true ↔
      (format = [] ∨ format.getLast? ≠ some NL) := by
  rcases List.eq_nil_or_concat format with h | ⟨l, b, h⟩
  · subst h; simp
  · subst h
    simp [List.getD_eq_getElem?_getD, List.getLast?_eq_getElem?]

theorem PrintfMsg_result (sprintf : GoString → List Arg → GoString)
    (app : Option Application) (between : Option Bool) (t : Terminal) (format : GoString)
    (a : List Arg) :
    consoleMessageOutput.PrintfMsg sprintf app between t format a =
      { havePrompt := between.getD t.havePrompt &&
          (app.isNone || !(app.elim false Application.TerminationInProgress)),
        out := t.out ++ (if t.havePrompt then [Event.stdout eraseSeq] else []) ++
          [Event.stdout (sprintf format a)] ++
          (if format = [] ∨ format.getLast? ≠ some NL then [Event.stdout [NL]] else []) ++
          (if between.getD t.havePrompt &&
              (app.isNone || !(app.elim false Application.TerminationInProgress))
            then [Event.OnNewLine, Event.Redisplay] else []) } := by
  have h := lastByte_ne_NL_iff format
  obtain ⟨hp, out⟩ := t
  unfold consoleMessageOutput.PrintfMsg
  generalize (format.length == 0 || format.getD (format.length - 1) 0 != NL) = b at h ⊢
  generalize (app.isNone || !(app.elim false Application.TerminationInProgress)) = c
  by_cases hc : (format = [] ∨ format.getLast? ≠ some NL)
  · have h1 := h.mpr hc
    subst h1
    rcases between with _ | w <;> cases hp <;> cases c <;> try cases w
    all_goals simp [Terminal.emit, hc, PROMPT, str]
  · have h1 : b = false := by
      cases b
      · rfl
      · exact absurd (h.mp rfl) hc
    subst h1
    rcases between with _ | w <;> cases hp <;> cases c <;> try cases w
    all_goals simp [Terminal.emit, hc, PROMPT, str]

/-- C1: after the formatted message `PrintfMsg` writes exactly one new-line when
the format is empty or does not end with a new-line byte, and writes nothing
after the message when the format ends with a new-line byte (what follows the
message is then at most the redraw asked of the line editor); this holds
whatever other goroutines write to `havePrompt` during the call. -/
theorem PrintfMsg_appends_one_newline (sprintf : GoString → List Arg → GoString)
    (app : Option Application) (between : Option Bool) (t : Terminal) (format : GoString)
    (a : List Arg) :
    ∃ post : List Event,
      (consoleMessageOutput.PrintfMsg sprintf app between t format a).out =
        t.out ++ (if t.havePrompt then [Event.stdout eraseSeq] else []) ++
          [Event.stdout (sprintf format a)] ++ post ∧
      written post =
        (if format = [] ∨ format.getLast? ≠ some NL then [[NL]] else []) := by
  rw [PrintfMsg_result]
  refine ⟨(if format = [] ∨ format.getLast? ≠ some NL then [Event.stdout [NL]] else []) ++
    (if between.getD t.havePrompt &&
        (app.isNone || !(app.elim false Application.TerminationInProgress))
      then [Event.OnNewLine, Event.Redisplay] else []), ?_, ?_⟩
  · simp only [List.append_assoc]
  · split_ifs <;> simp [written]

/-- C2 (counterexample): a call made with `havePrompt` false, during which the
line reader sets `havePrompt`, writes no erase sequence and yet asks for the
redraw and leaves `havePrompt` true; a call made with `havePrompt` true and the
application not terminating, during which the line reader clears
`havePrompt`, asks for no redraw and leaves `havePrompt` false. -/
theorem PrintfMsg_prompt_counterexample :
    consoleMessageOutput.PrintfMsg (fun format _ => format)
        (some { TerminationInProgress := false }) (some true)
        { havePrompt := false, out := [] } (str "reset") [] =
      { havePrompt := true,
        out := [Event.stdout (str "reset"), Event.stdout [NL],
          Event.OnNewLine, Event.Redisplay] } ∧
    consoleMessageOutput.PrintfMsg (fun format _ => format)
        (some { TerminationInProgress := false }) (some false)
        { havePrompt := true, out := [] } (str "reset") [] =
      { havePrompt := false,
        out := [Event.stdout ([CR] ++ PROMPT_EMPTY ++ [CR]), Event.stdout (str "reset"),
          Event.stdout [NL]] } := by
  refine ⟨by rfl, by rfl⟩

/-- C2 (amended): `PrintfMsg` writes the erase sequence
`"\r" + PROMPT_EMPTY + "\r"` before the message exactly when `havePrompt` is
true at the call.  What follows the message goes by `havePrompt` as read under
the second lock, after the message is written: when it is true and `app` is
nil or not terminating, `OnNewLine` and `Redisplay` are called and
`havePrompt` stays true; when it is true and `app` is terminating, no redraw
is asked and `havePrompt` becomes false; when it is false, no redraw is asked
and `havePrompt` stays false.  For a call during which no other goroutine
writes `havePrompt`, the second read gives the value at the call: with
`havePrompt` true the output is the erase sequence, the message and, unless
`app` is terminating, the redraw, and `havePrompt` ends true unless `app` is
terminating; with `havePrompt` false there is no erase sequence, no redraw,
and `havePrompt` ends false. -/
theorem PrintfMsg_prompt_handling (sprintf : GoString → List Arg → GoString)
    (app : Option Application) (between : Option Bool) (t : Terminal) (format : GoString)
    (a : List Arg) :
    let r := consoleMessageOutput.PrintfMsg sprintf app between t format a
    let erase := if t.havePrompt = true then [Event.stdout ([CR] ++ PROMPT_EMPTY ++ [CR])]
      else []
    let message := [Event.stdout (sprintf format a)] ++
      (if format = [] ∨ format.getLast? ≠ some NL then [Event.stdout [NL]] else [])
    let terminating := match app with
      | none => false
      | some ap => ap.TerminationInProgress
    let second := match between with
      | none => t.havePrompt
      | some w => w
    (if second = true then
      if terminating = true then
        r.out = t.out ++ erase ++ message ∧ r.havePrompt = false
      else
        r.out = t.out ++ erase ++ message ++ [Event.OnNewLine, Event.Redisplay] ∧
          r.havePrompt = true
    else
      r.out = t.out ++ erase ++ message ∧ r.havePrompt = false) ∧
    (let r0 := consoleMessageOutput.PrintfMsg sprintf app none t format a
    if t.havePrompt = true then
      if terminating = true then
        r0.out = t.out ++ [Event.stdout ([CR] ++ PROMPT_EMPTY ++ [CR])] ++ message ∧
          r0.havePrompt = false
      else
        r0.out = t.out ++ [Event.stdout ([CR] ++ PROMPT_EMPTY ++ [CR])] ++ message ++
            [Event.OnNewLine, Event.Redisplay] ∧
          r0.havePrompt = true
    else
      r0.out = t.out ++ message ∧ r0.havePrompt = false) := by
  intro r erase message terminating second
  have h := PrintfMsg_result sprintf app between t format a
  have h0 := PrintfMsg_result sprintf app none t format a
  obtain ⟨hp, out⟩ := t
  constructor
  · rcases between with _ | w <;> cases hp <;> rcases app with _ | ⟨tp⟩ <;>
      (try cases tp) <;> (try cases w)
    all_goals simp [r, erase, message, terminating, second, h, eraseSeq]
  · cases hp <;> rcases app with _ | ⟨tp⟩ <;> (try cases tp)
    all_goals simp [message, terminating, h0, eraseSeq]

/-- C8 (counterexample): `SIGHUP` makes `HandleSignal` call nothing, and
`SIGTSTP`, `SIGTTIN` and `SIGTTOU` make it call `CleanupAfterSignal` only, so
the partially entered line is not discarded for them. -/
theorem HandleSignal_disruptive_counterexample :
    handler_t.HandleSignal (Signal.UnixSignal UnixSignal.SIGHUP) = [] ∧
    handler_t.HandleSignal (Signal.UnixSignal UnixSignal.SIGTSTP) =
      [Event.CleanupAfterSignal] ∧
    handler_t.HandleSignal (Signal.UnixSignal UnixSignal.SIGTTIN) =
      [Event.CleanupAfterSignal] ∧
    handler_t.HandleSignal (Signal.UnixSignal UnixSignal.SIGTTOU) =
      [Event.CleanupAfterSignal] ∧
    Event.FreeLineState ∉ handler_t.HandleSignal (Signal.UnixSignal UnixSignal.SIGTSTP) := by
  decide

/-- C8 (amended): `SIGINT` makes `HandleSignal` call `FreeLineState` and then
`CleanupAfterSignal`; `SIGQUIT`, `SIGTERM`, `SIGALRM`, `SIGTSTP`, `SIGTTIN` and
`SIGTTOU` make it call `CleanupAfterSignal` only; `SIGWINCH` makes it call
`ResizeTerminal` only; every other signal, `SIGHUP` included, makes it call
nothing; it never makes any call besides these three line-editor calls. -/
theorem HandleSignal_cases :
    handler_t.HandleSignal (Signal.UnixSignal UnixSignal.SIGINT) =
      [Event.FreeLineState, Event.CleanupAfterSignal] ∧
    (∀ ss ∈ [UnixSignal.SIGQUIT, UnixSignal.SIGTERM, UnixSignal.SIGALRM, UnixSignal.SIGTSTP,
        UnixSignal.SIGTTIN, UnixSignal.SIGTTOU],
      handler_t.HandleSignal (Signal.UnixSignal ss) = [Event.CleanupAfterSignal]) ∧
    handler_t.HandleSignal (Signal.UnixSignal UnixSignal.SIGWINCH) = [Event.ResizeTerminal] ∧
    handler_t.HandleSignal (Signal.UnixSignal UnixSignal.SIGHUP) = [] ∧
    (∀ n, handler_t.HandleSignal (Signal.UnixSignal (UnixSignal.other n)) = []) ∧
    handler_t.HandleSignal Signal.other = [] ∧
    (∀ s, ∀ e ∈ handler_t.HandleSignal s,
      e = Event.FreeLineState ∨ e = Event.CleanupAfterSignal ∨ e = Event.ResizeTerminal) := by
  refine ⟨rfl, by decide, rfl, rfl, fun _ => rfl, rfl, ?_⟩
  intro s e he
  cases s with
  | other => simp [handler_t.HandleSignal] at he
  | UnixSignal ss =>
    cases ss <;> simp [handler_t.HandleSignal] at he <;>
      first
      | (rcases he with h | h <;> simp [h])
      | simp [he]

/-- C5: `run` compiles `sourceCode + "\n"`; when compilation fails it reports
that error once through `app.PrintfMsg` and executes nothing; when compilation
succeeds it executes the code once and reports an error through
`app.PrintfMsg` exactly when the execution fails; `run` is total and hands no
error to its caller. -/
theorem run_reports_errors {σ : Type} (env : Env σ) (s : State σ) (sourceCode : GoString) :
    match env.Compile s.world (sourceCode ++ [NL]) with
    | (w, Except.error err) =>
      run env s sourceCode =
        { s with world := w, out := s.out ++ [Event.Compile (sourceCode ++ [NL]),
            Event.PrintfMsg (str "%s") [Arg.e err]] }
    | (w, Except.ok code) =>
      match env.Run w code with
      | (w1, some err) =>
        run env s sourceCode =
          { s with world := w1, out := s.out ++ [Event.Compile (sourceCode ++ [NL]),
              Event.Run code, Event.PrintfMsg (str "%s") [Arg.e err]] }
      | (w1, none) =>
        run env s sourceCode =
          { s with world := w1, out := s.out ++ [Event.Compile (sourceCode ++ [NL]),
              Event.Run code] } := by
  have hnl : str "\n" = [NL] := rfl
  unfold run
  simp only [hnl, State.emit]
  rcases h : env.Compile s.world (sourceCode ++ [NL]) with ⟨w, (err | code)⟩
  · simp
  · simp only
    rcases h1 : env.Run w code with ⟨w1, (_ | err)⟩ <;> simp


theorem padLoop_eq (n j maxKeyLen : Nat) (buf : GoString) (h : maxKeyLen - j = n) :
    padLoop j maxKeyLen buf = buf ++ List.replicate (maxKeyLen - j) SP := by
  induction n generalizing j buf with
  | zero =>
    unfold padLoop
    have : ¬ j < maxKeyLen := by omega
    simp [this, h]
  | succ n ih =>
    unfold padLoop
    have hj : j < maxKeyLen := by omega
    have h1 : maxKeyLen - (j + 1) = n := by omega
    have h2 : maxKeyLen - j = (maxKeyLen - (j + 1)) + 1 := by omega
    have hs : str " " = [SP] := rfl
    rw [if_pos hj, ih (j + 1) _ h1, h2, List.replicate_succ, hs]
    simp

theorem foldr_max_comm (a m : Nat) (l : List Nat) :
    List.foldr max (max a m) l = max a (List.foldr max m l) := by
  induction l with
  | nil => rfl
  | cons b l ih => simp only [List.foldr_cons, ih]; omega

theorem maxKeyLenLoop_eq (keys : List GoString) (m : Nat) :
    maxKeyLenLoop keys m = (keys.map List.length).foldr max m := by
  induction keys generalizing m with
  | nil => rfl
  | cons k ks ih =>
    simp only [maxKeyLenLoop, List.map_cons, List.foldr_cons, ih]
    rw [← foldr_max_comm]
    congr 1
    split_ifs <;> omega

theorem le_foldr_max (l : List Nat) (m : Nat) : ∀ x ∈ l, x ≤ List.foldr max m l := by
  induction l with
  | nil => simp
  | cons b l ih =>
    intro x hx
    simp only [List.mem_cons] at hx
    simp only [List.foldr_cons]
    rcases hx with h | h
    · subst h; omega
    · have := ih x h; omega

theorem helpLoop_eq (maxKeyLen : Nat) (keys vals : List GoString) (buf : GoString)
    (h : keys.length = vals.length) :
    helpLoop maxKeyLen keys vals buf = some (buf ++ (List.zipWith (fun key val =>
      List.replicate 4 SP ++ key ++ List.replicate (maxKeyLen - key.length) SP ++
        List.replicate 2 SP ++ val ++ [NL]) keys vals).flatten) := by
  induction keys generalizing vals buf with
  | nil => simp [helpLoop]
  | cons k ks ih =>
    cases vals with
    | nil => simp at h
    | cons v vs =>
      have h1 : ks.length = vs.length := by simpa using h
      have hs4 : str "    " = List.replicate 4 SP := rfl
      have hs2 : str "  " = List.replicate 2 SP := rfl
      simp only [helpLoop, ih _ _ h1, padLoop_eq _ _ _ _ rfl, hs4, hs2,
        List.zipWith_cons_cons, List.flatten_cons, List.append_assoc]

theorem printHelp_eq {σ : Type} (s : State σ) (h : s.help_keys.length = s.help_vals.length) :
    printHelp s = some (s.emit (Event.PrintfMsg (str "%s\n") [Arg.s
      (str "\nAvailable commands:\n" ++ (List.zipWith (fun key val =>
        List.replicate 4 SP ++ key ++
          List.replicate ((s.help_keys.map List.length).foldr max 1 - key.length) SP ++
          List.replicate 2 SP ++ val ++ [NL]) s.help_keys s.help_vals).flatten)])) := by
  unfold printHelp
  simp only [maxKeyLenLoop_eq, helpLoop_eq _ _ _ _ h]

/-- C4: for a registry with as many help texts as keys, `printHelp` hands to
`app.PrintfMsg`, as the one argument of the format `"%s\n"`, exactly the text
`"\nAvailable commands:\n"` followed, entry by entry in registration order, by
four spaces, the key, `maxKeyLen - len(key)` spaces, two spaces, the help text
and a new-line, with `maxKeyLen` the maximum of 1 and the key lengths; every
help text starts at offset `4 + maxKeyLen + 2` of its entry; and on an empty
line the console loop takes the line, emits this listing and sends the
acknowledgment, without calling the evaluator, and goes on with the cases that
follow. -/
theorem printHelp_listing {σ : Type} (env : Env σ) (exitAppIfEndOfInput : Bool)
    (s : State σ) (rest : List ConsoleSelect)
    (h : s.help_keys.length = s.help_vals.length) :
    let maxKeyLen := (s.help_keys.map List.length).foldr max 1
    let entry := fun (key val : GoString) =>
      List.replicate 4 SP ++ key ++ List.replicate (maxKeyLen - key.length) SP ++
        List.replicate 2 SP ++ val ++ [NL]
    let listing := str "\nAvailable commands:\n" ++
      (List.zipWith entry s.help_keys s.help_vals).flatten
    printHelp s = some (s.emit (Event.PrintfMsg (str "%s\n") [Arg.s listing])) ∧
    (∀ key ∈ s.help_keys,
      (List.replicate 4 SP ++ key ++ List.replicate (maxKeyLen - key.length) SP ++
        List.replicate 2 SP).length = 4 + maxKeyLen + 2) ∧
    consoleLoop env exitAppIfEndOfInput [ConsoleSelect.code []] s =
      some { s with out := s.out ++ [Event.recvVal Chan.code (Msg.text []),
          Event.PrintfMsg (str "%s\n") [Arg.s listing],
          Event.send Chan.code (Msg.text (str "<next>"))] } ∧
    consoleLoop env exitAppIfEndOfInput (ConsoleSelect.code [] :: rest) s =
      consoleLoop env exitAppIfEndOfInput rest
        { s with out := s.out ++ [Event.recvVal Chan.code (Msg.text []),
            Event.PrintfMsg (str "%s\n") [Arg.s listing],
            Event.send Chan.code (Msg.text (str "<next>"))] } := by
  intro maxKeyLen entry listing
  have h1 : printHelp (s.emit (Event.recvVal Chan.code (Msg.text []))) = _ :=
    printHelp_eq (s.emit (Event.recvVal Chan.code (Msg.text []))) h
  refine ⟨printHelp_eq s h, ?_, ?_, ?_⟩
  · intro key hk
    have := le_foldr_max (s.help_keys.map List.length) 1 key.length
      (List.mem_map_of_mem _ hk)
    simp only [List.length_append, List.length_replicate]
    omega
  · simp only [consoleLoop, List.length_nil, gt_iff_lt, lt_self_iff_false, if_false, h1]
    simp [State.emit, listing, entry, maxKeyLen]
  · simp only [consoleLoop, List.length_nil, gt_iff_lt, lt_self_iff_false, if_false, h1]
    simp [State.emit, listing, entry, maxKeyLen]

theorem State.emit_out {σ : Type} (s : State σ) (e : Event) :
    (s.emit e).out = s.out ++ [e] := rfl

theorem State.emit_help_keys {σ : Type} (s : State σ) (e : Event) :
    (s.emit e).help_keys = s.help_keys := rfl

theorem State.emit_help_vals {σ : Type} (s : State σ) (e : Event) :
    (s.emit e).help_vals = s.help_vals := rfl

theorem State.emit_world {σ : Type} (s : State σ) (e : Event) :
    (s.emit e).world = s.world := rfl

theorem run_frame {σ : Type} (env : Env σ) (s : State σ) (sourceCode : GoString) :
    (run env s sourceCode).help_keys = s.help_keys ∧
    (run env s sourceCode).help_vals = s.help_vals ∧
    (run env s sourceCode).app = s.app ∧
    ∃ new, (run env s sourceCode).out = s.out ++ new ∧
      new.filterMap dispatchOf = [Dispatch.run (sourceCode ++ [NL])] ∧
      Event.RequestExit ∉ new := by
  have hnl : str "\n" = [NL] := rfl
  unfold run
  simp only [hnl, State.emit]
  rcases h1 : env.Compile s.world (sourceCode ++ [NL]) with ⟨w, (err | code)⟩
  · refine ⟨rfl, rfl, rfl, [Event.Compile (sourceCode ++ [NL]),
      Event.PrintfMsg (str "%s") [Arg.e err]], by simp, ?_, by simp⟩
    simp [dispatchOf, str]
  · simp only
    rcases h2 : env.Run w code with ⟨w1, (_ | err)⟩
    · refine ⟨rfl, rfl, rfl, [Event.Compile (sourceCode ++ [NL]), Event.Run code],
        by simp, ?_, by simp⟩
      simp [dispatchOf]
    · refine ⟨rfl, rfl, rfl, [Event.Compile (sourceCode ++ [NL]), Event.Run code,
        Event.PrintfMsg (str "%s") [Arg.e err]], by simp, ?_, by simp⟩
      simp [dispatchOf, str]

/-- C3: when the `select` of the `runConsole` loop takes the lines `L1..Ln`
from `code_chan` and nothing else, the loop does, for each line in the order
delivered: take the line, enter `run` with it when it is non-empty or print
the help listing when it is empty, then send one acknowledgment on
`code_chan`; nothing else is taken, dispatched or acknowledged. -/
theorem consoleLoop_dispatches_in_order {σ : Type} (env : Env σ)
    (exitAppIfEndOfInput : Bool) (lines : List GoString) (s : State σ)
    (h : s.help_keys.length = s.help_vals.length) :
    ∃ s1 new, consoleLoop env exitAppIfEndOfInput (lines.map ConsoleSelect.code) s = some s1 ∧
      s1.out = s.out ++ new ∧
      new.filterMap dispatchOf = (lines.map (fun line =>
        [Dispatch.taken line,
         if line.length > 0 then Dispatch.run (line ++ [NL]) else Dispatch.printHelp,
         Dispatch.acknowledged])).flatten := by
  induction lines generalizing s with
  | nil => exact ⟨s, [], rfl, by simp, rfl⟩
  | cons l ls ih =>
    by_cases hl : l.length > 0
    · obtain ⟨hk, hv, -, new1, ho, hf, -⟩ :=
        run_frame env (s.emit (Event.recvVal Chan.code (Msg.text l))) l
      have hlen : ((run env (s.emit (Event.recvVal Chan.code (Msg.text l))) l).emit
          (Event.send Chan.code (Msg.text (str "<next>")))).help_keys.length =
          ((run env (s.emit (Event.recvVal Chan.code (Msg.text l))) l).emit
          (Event.send Chan.code (Msg.text (str "<next>")))).help_vals.length := by
        simp only [State.emit_help_keys, State.emit_help_vals, hk, hv]; exact h
      obtain ⟨s1, new, h1, h2, h3⟩ := ih _ hlen
      refine ⟨s1, [Event.recvVal Chan.code (Msg.text l)] ++ new1 ++
        [Event.send Chan.code (Msg.text (str "<next>"))] ++ new, ?_, ?_, ?_⟩
      · simp only [List.map_cons, consoleLoop, hl, if_true]
        exact h1
      · rw [h2]
        simp only [State.emit_out, ho, List.append_assoc]
      · simp only [List.filterMap_append, hf, h3, List.map_cons, List.flatten_cons, hl, if_true]
        simp [dispatchOf]
    · have hnil : l = [] := by
        cases l with
        | nil => rfl
        | cons a b => simp at hl
      subst hnil
      obtain ⟨listing, hp⟩ : ∃ listing,
          printHelp (s.emit (Event.recvVal Chan.code (Msg.text []))) =
            some ((s.emit (Event.recvVal Chan.code (Msg.text []))).emit
              (Event.PrintfMsg (str "%s\n") [Arg.s listing])) :=
        ⟨_, printHelp_eq (s.emit (Event.recvVal Chan.code (Msg.text []))) h⟩
      obtain ⟨s1, new, h1, h2, h3⟩ := ih
        (((s.emit (Event.recvVal Chan.code (Msg.text []))).emit
          (Event.PrintfMsg (str "%s\n") [Arg.s listing])).emit
          (Event.send Chan.code (Msg.text (str "<next>")))) h
      refine ⟨s1, [Event.recvVal Chan.code (Msg.text []),
        Event.PrintfMsg (str "%s\n") [Arg.s listing],
        Event.send Chan.code (Msg.text (str "<next>"))] ++ new, ?_, ?_, ?_⟩
      · simp only [List.map_cons, consoleLoop, hl, if_false, hp]
        exact h1
      · rw [h2]
        simp only [State.emit_out, List.append_assoc, List.singleton_append, List.cons_append,
          List.nil_append]
      · simp only [List.map_cons, List.flatten_cons, hl, if_false, ← h3, List.filterMap_append]
        simp [dispatchOf]


theorem printHelp_frame {σ : Type} (s s1 : State σ) (h : printHelp s = some s1) :
    ∃ listing, s1 = s.emit (Event.PrintfMsg (str "%s\n") [Arg.s listing]) := by
  unfold printHelp at h
  simp only at h
  split at h
  · exact absurd h (by simp)
  · rename_i buf _
    exact ⟨buf, (Option.some.inj h).symm⟩

theorem ExtendsWithout.refl (bad : Event) (old : List Event) : ExtendsWithout bad old old :=
  ⟨[], by simp, by simp⟩

theorem ExtendsWithout.trans {bad : Event} {a b c : List Event}
    (h1 : ExtendsWithout bad a b) (h2 : ExtendsWithout bad b c) : ExtendsWithout bad a c := by
  obtain ⟨x, hx, hx1⟩ := h1
  obtain ⟨y, hy, hy1⟩ := h2
  refine ⟨x ++ y, ?_, ?_⟩
  · rw [hy, hx, List.append_assoc]
  · simp [hx1, hy1]

theorem ExtendsWithout.snoc {bad : Event} {a b : List Event} (e : Event)
    (h1 : ExtendsWithout bad a b) (he : bad ≠ e) : ExtendsWithout bad a (b ++ [e]) :=
  h1.trans ⟨[e], rfl, by simpa using he⟩

theorem run_no_RequestExit {σ : Type} (env : Env σ) (s : State σ) (sourceCode : GoString) :
    ExtendsWithout Event.RequestExit s.out (run env s sourceCode).out := by
  obtain ⟨-, -, -, new1, ho, -, hn⟩ := run_frame env s sourceCode
  exact ⟨new1, ho, hn⟩

theorem consoleLoop_no_RequestExit {σ : Type} (env : Env σ) (sel : List ConsoleSelect)
    (s s1 : State σ)
    (hsel : ∀ c ∈ sel, c = ConsoleSelect.Pause ∨ c = ConsoleSelect.Terminate ∨
      c = ConsoleSelect.no_more_code)
    (h : consoleLoop env false sel s = some s1) :
    ExtendsWithout Event.RequestExit s.out s1.out := by
  induction sel generalizing s with
  | nil =>
    simp only [consoleLoop, Option.some.injEq] at h
    subst h
    exact ExtendsWithout.refl _ _
  | cons c rest ih =>
    have hrest : ∀ c ∈ rest, c = ConsoleSelect.Pause ∨ c = ConsoleSelect.Terminate ∨
        c = ConsoleSelect.no_more_code := fun c hc => hsel c (List.mem_cons_of_mem _ hc)
    cases c with
    | Pause =>
      simp only [consoleLoop] at h
      refine ExtendsWithout.trans ?_ (ih _ hrest h)
      exact ((ExtendsWithout.refl _ _).snoc _ (by simp)).snoc _ (by simp)
    | Terminate =>
      simp only [consoleLoop, Option.some.injEq] at h
      subst h
      split_ifs
      · exact (((ExtendsWithout.refl _ _).snoc _ (by simp)).snoc _ (by simp)).snoc _ (by simp)
      · exact ((ExtendsWithout.refl _ _).snoc _ (by simp)).snoc _ (by simp)
    | code c =>
      have := hsel (ConsoleSelect.code c) (List.mem_cons_self _ _)
      simp at this
    | no_more_code =>
      simp only [consoleLoop, Bool.false_eq_true, if_false] at h
      refine ExtendsWithout.trans ?_ (ih _ hrest h)
      exact ((ExtendsWithout.refl _ _).snoc _ (by simp)).snoc _ (by simp)

theorem consoleLoop_pauses_terminate {σ : Type} (env : Env σ) (exitAppIfEndOfInput : Bool)
    (pauses : Nat) (rest : List ConsoleSelect) (s : State σ) :
    consoleLoop env exitAppIfEndOfInput
        (List.replicate pauses ConsoleSelect.Pause ++ ConsoleSelect.Terminate :: rest) s =
      some { s with out := s.out ++
        (List.replicate pauses [Event.recv Chan.consolePause,
          Event.send Chan.consolePause (Msg.byte 0)]).flatten ++
        [Event.recv Chan.consoleTerminate] ++
        (if env.Verbose s.world then [Event.PrintfMsg (str "console loop: exit") []] else []) ++
        [Event.send Chan.consoleTerminate (Msg.byte 0)] } := by
  induction pauses generalizing s with
  | zero =>
    simp only [List.replicate_zero, List.nil_append, consoleLoop, State.emit_world,
      List.flatten_nil, List.append_nil]
    split_ifs <;> simp [State.emit]
  | succ n ih =>
    have hstep : consoleLoop env exitAppIfEndOfInput
        (List.replicate (n + 1) ConsoleSelect.Pause ++ ConsoleSelect.Terminate :: rest) s =
        consoleLoop env exitAppIfEndOfInput
          (List.replicate n ConsoleSelect.Pause ++ ConsoleSelect.Terminate :: rest)
          ((s.emit (Event.recv Chan.consolePause)).emit
            (Event.send Chan.consolePause (Msg.byte 0))) := rfl
    rw [hstep, ih]
    simp [State.emit, List.replicate_succ]

/-- C7: on the end-of-input notification the `runConsole` loop calls
`app.RequestExit` when `exitAppIfEndOfInput` is true; when it is false it
calls `evtLoop.Delete` only, and once the deleted loop is sent `Terminate`
(after any number of pause requests) `runConsole` returns, taking no further
case, with no call of `app.RequestExit`; with `exitAppIfEndOfInput` false
and no line delivered, no statement of the loop calls `app.RequestExit`. -/
theorem consoleLoop_end_of_input {σ : Type} (env : Env σ) (s : State σ) :
    consoleLoop env true [ConsoleSelect.no_more_code] s =
      some { s with out := s.out ++ [Event.recv Chan.no_more_code, Event.RequestExit] } ∧
    (∀ rest, consoleLoop env true (ConsoleSelect.no_more_code :: rest) s =
      consoleLoop env true rest
        { s with out := s.out ++ [Event.recv Chan.no_more_code, Event.RequestExit] }) ∧
    consoleLoop env false [ConsoleSelect.no_more_code] s =
      some { s with out := s.out ++ [Event.recv Chan.no_more_code, Event.DeleteEventLoop] } ∧
    (∀ pauses rest,
      consoleLoop env false (ConsoleSelect.no_more_code :: EventLoop.Delete pauses rest) s =
        some { s with out := s.out ++
          [Event.recv Chan.no_more_code, Event.DeleteEventLoop] ++
          (List.replicate pauses [Event.recv Chan.consolePause,
            Event.send Chan.consolePause (Msg.byte 0)]).flatten ++
          [Event.recv Chan.consoleTerminate] ++
          (if env.Verbose s.world then [Event.PrintfMsg (str "console loop: exit") []]
            else []) ++
          [Event.send Chan.consoleTerminate (Msg.byte 0)] }) ∧
    (∀ sel s1,
      (∀ c ∈ sel, c = ConsoleSelect.Pause ∨ c = ConsoleSelect.Terminate ∨
        c = ConsoleSelect.no_more_code) →
      consoleLoop env false sel s = some s1 →
      ∃ new, s1.out = s.out ++ new ∧ Event.RequestExit ∉ new) := by
  refine ⟨?_, ?_, ?_, ?_, fun sel s1 hsel h => consoleLoop_no_RequestExit env sel s s1 hsel h⟩
  · simp [consoleLoop, State.emit]
  · intro rest
    simp [consoleLoop, State.emit]
  · simp [consoleLoop, State.emit]
  · intro pauses rest
    simp only [consoleLoop, Bool.false_eq_true, if_false, EventLoop.Delete,
      consoleLoop_pauses_terminate, State.emit_world]
    simp [State.emit]

theorem defineFunctions_frame {σ : Type} (env : Env σ) (s : State σ) :
    (defineFunctions env s).app = s.app ∧
    ExtendsWithout Event.RequestExit s.out (defineFunctions env s).out := by
  refine ⟨rfl, ?_⟩
  refine ⟨[Event.DefineVar (str "help"), Event.DefineVar (str "exit"),
    Event.DefineVar (str "reset"), Event.DefineVar (str "load"), Event.DefineVar (str "save"),
    Event.DefineVar (str "scale"), Event.DefineVar (str "fps"),
    Event.DefineVar (str "ULA_accuracy"), Event.DefineVar (str "sound"),
    Event.DefineVar (str "wait"), Event.DefineVar (str "script"),
    Event.DefineVar (str "optionalScript")], ?_, by simp⟩
  simp [defineFunctions, defineFunction, State.emit]

/-- C6 (counterexample): with a startup script that can be read but whose code
fails to compile, and with one whose execution returns an error, `runConsole`
reports the error, never calls `app.RequestExit`, prints the usage hint,
starts `readCode` and enters its loop. -/
theorem runConsole_failing_startup_counterexample :
    (runConsole (sampleEnv false true) false [] initialState).map (fun s => s.out) =
      some (definitionEvents ++
        [Event.ReadFile (str "startup.go"), Event.Compile (str "exit()\n"),
         Event.PrintfMsg (str "%s") [Arg.e { text := str "compile error" }],
         Event.PrintfMsg HINT [], Event.goReadCode, Event.NewEventLoop]) ∧
    (runConsole (sampleEnv true false) false [] initialState).map (fun s => s.out) =
      some (definitionEvents ++
        [Event.ReadFile (str "startup.go"), Event.Compile (str "exit()\n"),
         Event.Run { handle := 0 },
         Event.PrintfMsg (str "%s") [Arg.e { text := str "run error" }],
         Event.PrintfMsg HINT [], Event.goReadCode, Event.NewEventLoop]) ∧
    (runConsole (sampleEnv false true) false [] initialState).map
      (fun s => decide (Event.RequestExit ∈ s.out)) = some false ∧
    (runConsole (sampleEnv true false) false [] initialState).map
      (fun s => decide (Event.RequestExit ∈ s.out)) = some false := by
  refine ⟨by rfl, by rfl, by rfl, by rfl⟩

/-- C6 (amended): when the file of the startup script cannot be read,
`runConsole` prints the error, calls `app.RequestExit` and returns: no usage
hint, no `readCode`, no loop.  When the file can be read, `runConsole` runs its
text through `run`, which reports a compile or execution error through
`app.PrintfMsg`; `runConsole` then calls no `app.RequestExit`, and it returns
at once when termination is in progress or has happened, and otherwise prints
the hint, starts `readCode` and enters its loop. -/
theorem runConsole_startup {σ : Type} (env : Env σ) (exitAppIfEndOfInput : Bool)
    (sel : List ConsoleSelect) (s : State σ) (h : s.app = false) :
    let s0 := defineFunctions env
      { s with app := true, world := env.NewWorld s.world, out := s.out ++ [Event.NewWorld] }
    let s1 := s0.emit (Event.ReadFile (str "startup.go"))
    match env.ReadFile s0.world (str "startup.go") with
    | Except.error err =>
      runConsole env exitAppIfEndOfInput sel s =
        some { s1 with out := s1.out ++
          [Event.PrintfMsg (str "%s") [Arg.e err], Event.RequestExit] }
    | Except.ok data =>
      let s2 := run env s1 data
      (∃ new, s2.out = s.out ++ new ∧ Event.RequestExit ∉ new) ∧
      (if env.TerminationInProgress s2.world || env.HasTerminated s2.world then
        runConsole env exitAppIfEndOfInput sel s = some s2
      else
        runConsole env exitAppIfEndOfInput sel s =
          consoleLoop env exitAppIfEndOfInput sel
            { s2 with out := s2.out ++
              [Event.PrintfMsg HINT [], Event.goReadCode, Event.NewEventLoop] }) := by
  intro s0 s1
  have hname : STARTUP_SCRIPT ++ str ".go" = str "startup.go" := rfl
  have hrc : runConsole env exitAppIfEndOfInput sel s =
      match runScript env s0 STARTUP_SCRIPT false with
      | (s, some err) =>
        some ((s.emit (Event.PrintfMsg (str "%s") [Arg.e err])).emit Event.RequestExit)
      | (s, none) =>
        if env.TerminationInProgress s.world || env.HasTerminated s.world then some s
        else consoleLoop env exitAppIfEndOfInput sel
          (((s.emit (Event.PrintfMsg HINT [])).emit Event.goReadCode).emit Event.NewEventLoop) := by
    simp only [runConsole, h, Bool.false_eq_true, if_false]
    rfl
  rw [hrc]
  unfold runScript
  simp only [hname, State.emit_world]
  rcases hr : env.ReadFile s0.world (str "startup.go") with err | data
  · simp [State.emit, s1]
  · simp only [Bool.not_false]
    refine ⟨?_, ?_⟩
    · have h1 : ExtendsWithout Event.RequestExit s.out s0.out :=
        ((ExtendsWithout.refl _ s.out).snoc Event.NewWorld (by simp)).trans
          (defineFunctions_frame env _).2
      exact (h1.snoc _ (by simp)).trans (run_no_RequestExit env s1 data)
    · split_ifs <;> simp_all [State.emit, s1]


theorem Terminal.out_of_emit (t : Terminal) (e : Event) : (t.emit e).out = t.out ++ [e] := rfl

theorem readCodeLoop_no_install (TrimSpace : GoString → GoString) (verbose : Bool)
    (sel : List ReadCodeTurn) (t : Terminal) :
    ExtendsWithout Event.InstallSignalHandler t.out
      (readCodeLoop TrimSpace verbose sel t).out := by
  induction sel generalizing t with
  | nil => exact ExtendsWithout.refl _ _
  | cons c rest ih =>
    obtain ⟨w, c⟩ := c
    cases c with
    | Pause =>
      simp only [readCodeLoop]
      refine ExtendsWithout.trans ?_ (ih _)
      simp only [Terminal.out_of_emit]
      refine ((ExtendsWithout.snoc _ ?_ (by simp)).snoc _ (by simp)).snoc _ (by simp)
      split_ifs
      · exact (((ExtendsWithout.refl _ _).snoc _ (by simp)).snoc _ (by simp)).snoc _ (by simp)
      · exact ((ExtendsWithout.refl _ _).snoc _ (by simp)).snoc _ (by simp)
    | Terminate =>
      simp only [readCodeLoop]
      split_ifs
      · exact (((ExtendsWithout.refl _ _).snoc _ (by simp)).snoc _ (by simp)).snoc _ (by simp)
      · exact ((ExtendsWithout.refl _ _).snoc _ (by simp)).snoc _ (by simp)
    | line lineP =>
      cases lineP with
      | none =>
        simp only [readCodeLoop]
        refine ExtendsWithout.trans ?_ (ih _)
        exact (((ExtendsWithout.refl _ _).snoc _ (by simp)).snoc _ (by simp)).snoc _ (by simp)
      | some l =>
        simp only [readCodeLoop]
        refine ExtendsWithout.trans ?_ (ih _)
        simp only [Terminal.out_of_emit]
        refine ((ExtendsWithout.snoc _ ?_ (by simp)).snoc _ (by simp)).snoc _ (by simp)
        split_ifs
        · exact ((ExtendsWithout.refl _ _).snoc _ (by simp)).snoc _ (by simp)
        · exact (ExtendsWithout.refl _ _).snoc _ (by simp)

/-- C9 (counterexample): `readCode` takes a pause and then a delivered line;
the handler is uninstalled by the pause (the fifth event) and no
`InstallSignalHandler` follows, neither after the pause nor while the line is
handled. -/
theorem readCode_reinstall_counterexample :
    readCode (fun l => l) false
        [{ havePromptWrite := none, taken := ReadCodeSelect.Pause },
         { havePromptWrite := none, taken := ReadCodeSelect.line (some (str "reset()")) }]
        { havePrompt := true, out := [] } =
      { havePrompt := false,
        out := [Event.InstallSignalHandler, Event.goLineReader, Event.NewEventLoop,
          Event.recv Chan.readCodePause, Event.UninstallSignalHandler,
          Event.stdout eraseSeq, Event.FreeLineState, Event.CleanupAfterSignal,
          Event.send Chan.readCodePause (Msg.byte 0),
          Event.recvVal Chan.readline_channel (Msg.text (str "reset()")),
          Event.AddHistory (str "reset()"), Event.send Chan.code (Msg.text (str "reset()")),
          Event.recv Chan.code, Event.send Chan.readline_channel Msg.nilLine] } ∧
    Event.InstallSignalHandler ∉
      (readCode (fun l => l) false
        [{ havePromptWrite := none, taken := ReadCodeSelect.Pause },
         { havePromptWrite := none, taken := ReadCodeSelect.line (some (str "reset()")) }]
        { havePrompt := true, out := [] }).out.drop 5 := by
  refine ⟨by rfl, by decide⟩

/-- C9 (amended): handling a pause, `readCode` uninstalls the signal handler,
erases a visible prompt and sets `havePrompt` to false, calls `FreeLineState`
and `CleanupAfterSignal`, and only then acknowledges the pause, whatever the
other goroutines wrote to `havePrompt` before; `readCode` installs the signal
handler once, as its first action, and never again, whatever its `select`
takes afterwards. -/
theorem readCode_pause_and_install (TrimSpace : GoString → GoString) (verbose : Bool) :
    (∀ (w : Option Bool) (rest : List ReadCodeTurn) (t : Terminal),
      readCodeLoop TrimSpace verbose
          ({ havePromptWrite := w, taken := ReadCodeSelect.Pause } :: rest) t =
        readCodeLoop TrimSpace verbose rest
          { havePrompt := false,
            out := t.out ++ [Event.recv Chan.readCodePause, Event.UninstallSignalHandler] ++
              (if w.getD t.havePrompt then [Event.stdout ([CR] ++ PROMPT_EMPTY ++ [CR])]
                else []) ++
              [Event.FreeLineState, Event.CleanupAfterSignal,
                Event.send Chan.readCodePause (Msg.byte 0)] }) ∧
    (∀ (sel : List ReadCodeTurn) (t : Terminal),
      ∃ new, (readCode TrimSpace verbose sel t).out =
          t.out ++ Event.InstallSignalHandler :: new ∧
        Event.InstallSignalHandler ∉ new) := by
  constructor
  · intro w rest t
    obtain ⟨hp, out⟩ := t
    rcases w with _ | w <;> cases hp <;> (try cases w)
    all_goals simp [readCodeLoop, Terminal.emit, PROMPT, str, eraseSeq]
  · intro sel t
    obtain ⟨new, h1, h2⟩ := readCodeLoop_no_install TrimSpace verbose sel
      (((t.emit Event.InstallSignalHandler).emit Event.goLineReader).emit Event.NewEventLoop)
    refine ⟨[Event.goLineReader, Event.NewEventLoop] ++ new, ?_, ?_⟩
    · unfold readCode
      rw [h1]
      simp [Terminal.emit]
    · simp [h2]

/-- Witness of C3: a non-empty line, then an empty line, from the state
`defineFunctions` leaves. -/
theorem consoleLoop_dispatches_in_order_witness :
    (defineFunctions (sampleEnv true true) initialState).help_keys.length =
      (defineFunctions (sampleEnv true true) initialState).help_vals.length ∧
    ∃ s1 new, consoleLoop (sampleEnv true true) false
        ([str "reset()", []].map ConsoleSelect.code)
        (defineFunctions (sampleEnv true true) initialState) = some s1 ∧
      s1.out = (defineFunctions (sampleEnv true true) initialState).out ++ new ∧
      new.filterMap dispatchOf =
        [Dispatch.taken (str "reset()"), Dispatch.run (str "reset()\n"), Dispatch.acknowledged,
         Dispatch.taken [], Dispatch.printHelp, Dispatch.acknowledged] :=
  ⟨rfl, consoleLoop_dispatches_in_order (sampleEnv true true) false [str "reset()", []]
    (defineFunctions (sampleEnv true true) initialState) rfl⟩

/-- Witness of C4: the registry `help()` / `load(path string)`, where the
first key is padded by eleven spaces, and the loop on one empty line. -/
theorem printHelp_listing_witness :
    sampleRegistry.help_keys.length = sampleRegistry.help_vals.length ∧
    printHelp sampleRegistry =
      some (sampleRegistry.emit (Event.PrintfMsg (str "%s\n") [Arg.s (str
        ("\nAvailable commands:\n" ++
         "    help()             This help\n" ++
         "    load(path string)  Load state from file (SNA format)\n"))])) ∧
    (∀ key ∈ [str "help()", str "load(path string)"],
      (List.replicate 4 SP ++ key ++ List.replicate (17 - key.length) SP ++
        List.replicate 2 SP).length = 4 + 17 + 2) ∧
    consoleLoop (sampleEnv true true) false [ConsoleSelect.code []] sampleRegistry =
      some { sampleRegistry with out := [Event.recvVal Chan.code (Msg.text []),
          Event.PrintfMsg (str "%s\n") [Arg.s (str
            ("\nAvailable commands:\n" ++
             "    help()             This help\n" ++
             "    load(path string)  Load state from file (SNA format)\n"))],
          Event.send Chan.code (Msg.text (str "<next>"))] } ∧
    consoleLoop (sampleEnv true true) false
        [ConsoleSelect.code [], ConsoleSelect.Terminate] sampleRegistry =
      consoleLoop (sampleEnv true true) false [ConsoleSelect.Terminate]
        { sampleRegistry with out := [Event.recvVal Chan.code (Msg.text []),
          Event.PrintfMsg (str "%s\n") [Arg.s (str
            ("\nAvailable commands:\n" ++
             "    help()             This help\n" ++
             "    load(path string)  Load state from file (SNA format)\n"))],
          Event.send Chan.code (Msg.text (str "<next>"))] } :=
  ⟨rfl, printHelp_listing (sampleEnv true true) false sampleRegistry
    [ConsoleSelect.Terminate] rfl⟩

/-- Witness of C6: a startup script that cannot be read. -/
theorem runConsole_startup_witness :
    (runConsole { sampleEnv true true with
          ReadFile := fun _ _ => Except.error { text := str "no such file" } }
        true [ConsoleSelect.code (str "reset()")] initialState).map (fun s => s.out) =
      some (definitionEvents ++ [Event.ReadFile (str "startup.go"),
        Event.PrintfMsg (str "%s") [Arg.e { text := str "no such file" }],
        Event.RequestExit]) :=
  congrArg (Option.map (fun s => s.out))
    (runConsole_startup { sampleEnv true true with
          ReadFile := fun _ _ => Except.error { text := str "no such file" } }
        true [ConsoleSelect.code (str "reset()")] initialState rfl)

theorem Handshake_step (TrimSpace : GoString → GoString) (l : Label) (s s1 : Sys)
    (d p a r : Nat) (hI : Handshake s d p a r) (hs : step TrimSpace l s = some s1) :
    Handshake s1 (d + delivered [l]) (p + dispatched [l]) (a + acknowledged [l])
      (r + released [l]) := by
  obtain ⟨rd, rc, co, hp⟩ := s
  obtain ⟨h1, h2, h3⟩ := hI
  simp only at h1 h2 h3
  cases l <;> simp only [step] at hs
  case readerClearPrompt =>
    split at hs
    · simp only [Option.some.injEq] at hs
      subst hs
      simp_all [Handshake, delivered, dispatched, acknowledged, released]
    · simp at hs
  case readCodeTrim =>
    split at hs
    · simp only [Option.some.injEq] at hs
      subst hs
      simp_all [Handshake, delivered, dispatched, acknowledged, released]
    · simp at hs
  case dispatch =>
    split at hs
    · simp only [Option.some.injEq] at hs
      subst hs
      simp_all [Handshake, delivered, dispatched, acknowledged, released]
    · simp at hs
  case deliver line =>
    split_ifs at hs with hc
    obtain ⟨hc1, hc2⟩ := hc
    subst hc1 hc2
    cases line with
    | none =>
      simp only [Option.some.injEq] at hs
      subst hs
      simp_all [Handshake, delivered, dispatched, acknowledged, released]
    | some lineP =>
      simp only [Option.some.injEq] at hs
      subst hs
      simp_all [Handshake, delivered, dispatched, acknowledged, released]
  all_goals
    split_ifs at hs with hc <;> simp only [Option.some.injEq] at hs <;> subst hs <;>
      simp_all [Handshake, delivered, dispatched, acknowledged, released]


theorem tally_cons (l : Label) (ls : List Label) :
    delivered (l :: ls) = delivered [l] + delivered ls ∧
    dispatched (l :: ls) = dispatched [l] + dispatched ls ∧
    acknowledged (l :: ls) = acknowledged [l] + acknowledged ls ∧
    released (l :: ls) = released [l] + released ls := by
  simp only [delivered, dispatched, acknowledged, released, List.countP_cons, List.countP_nil]
  omega

theorem Handshake_exec (TrimSpace : GoString → GoString) (ls : List Label) (s s1 : Sys)
    (d p a r : Nat) (hI : Handshake s d p a r) (h : exec TrimSpace ls s = some s1) :
    Handshake s1 (d + delivered ls) (p + dispatched ls) (a + acknowledged ls)
      (r + released ls) := by
  induction ls generalizing s d p a r with
  | nil =>
    simp only [exec, Option.some.injEq] at h
    subst h
    simpa [delivered, dispatched, acknowledged, released] using hI
  | cons l ls ih =>
    simp only [exec] at h
    cases hstep : step TrimSpace l s with
    | none => rw [hstep] at h; simp at h
    | some s2 =>
      rw [hstep] at h
      simp only at h
      have h2 := ih s2 _ _ _ _ (Handshake_step TrimSpace l s s2 d p a r hI hstep) h
      obtain ⟨e1, e2, e3, e4⟩ := tally_cons l ls
      rw [e1, e2, e3, e4]
      simpa only [Nat.add_assoc] using h2

theorem ReaderFinished_step (TrimSpace : GoString → GoString) (l : Label) (s s1 : Sys)
    (hs : step TrimSpace l s = some s1) :
    (ReaderFinished s → ReaderFinished s1) ∧ (l = Label.deliver none → ReaderFinished s1) := by
  obtain ⟨rd, rc, co, hp⟩ := s
  cases l <;> simp only [step] at hs
  case readerClearPrompt =>
    split at hs
    · simp only [Option.some.injEq] at hs
      subst hs
      simp [ReaderFinished]
    · simp at hs
  case readCodeTrim =>
    split at hs
    · simp only [Option.some.injEq] at hs
      subst hs
      simp [ReaderFinished]
    · simp at hs
  case dispatch =>
    split at hs
    · simp only [Option.some.injEq] at hs
      subst hs
      simp [ReaderFinished]
    · simp at hs
  case deliver line =>
    split_ifs at hs with hc
    obtain ⟨hc1, hc2⟩ := hc
    subst hc1 hc2
    cases line with
    | none =>
      simp only [Option.some.injEq] at hs
      subst hs
      simp [ReaderFinished]
    | some lineP =>
      simp only [Option.some.injEq] at hs
      subst hs
      simp [ReaderFinished]
  all_goals
    split_ifs at hs with hc <;> simp only [Option.some.injEq] at hs <;> subst hs <;>
      simp_all [ReaderFinished]

theorem ReaderFinished_exec (TrimSpace : GoString → GoString) (ls : List Label) (s s1 : Sys)
    (h : exec TrimSpace ls s = some s1) :
    (ReaderFinished s → ReaderFinished s1) ∧ (Label.deliver none ∈ ls → ReaderFinished s1) := by
  induction ls generalizing s with
  | nil =>
    simp only [exec, Option.some.injEq] at h
    subst h
    simp
  | cons l ls ih =>
    simp only [exec] at h
    cases hstep : step TrimSpace l s with
    | none => rw [hstep] at h; simp at h
    | some s2 =>
      rw [hstep] at h
      simp only at h
      obtain ⟨k1, k2⟩ := ReaderFinished_step TrimSpace l s s2 hstep
      obtain ⟨i1, i2⟩ := ih s2 h
      refine ⟨fun hf => i1 (k1 hf), fun hm => ?_⟩
      rcases List.mem_cons.mp hm with he | hm1
      · exact i1 (k2 he.symm)
      · exact i2 hm1

/-- C10: in every interleaving of the line reader, `readCode` and
`runConsole`, the lines delivered exceed the lines acknowledged back to the
line reader by at most one; the acknowledgment to the line reader follows the
one of `runConsole`, which follows the end of the dispatch, which follows the
delivery; whenever `readline.ReadLine` is called, every delivered line has
been dispatched and acknowledged; and once end of input has been delivered,
`readline.ReadLine` is never called again. -/
theorem one_line_outstanding (TrimSpace : GoString → GoString) (ls : List Label) (s : Sys)
    (h : exec TrimSpace ls Sys.initial = some s) :
    released ls ≤ acknowledged ls ∧ acknowledged ls ≤ dispatched ls ∧
    dispatched ls ≤ delivered ls ∧ delivered ls ≤ released ls + 1 ∧
    (∀ line s1, step TrimSpace (Label.ReadLine line) s = some s1 →
      delivered ls = dispatched ls ∧ dispatched ls = acknowledged ls ∧
        acknowledged ls = released ls) ∧
    (Label.deliver none ∈ ls → ∀ line, step TrimSpace (Label.ReadLine line) s = none) := by
  have h0 : Handshake Sys.initial 0 0 0 0 := by
    simp [Handshake, Sys.initial]
  have hH := Handshake_exec TrimSpace ls Sys.initial s 0 0 0 0 h0 h
  simp only [Nat.zero_add] at hH
  obtain ⟨-, -, h3⟩ := hH
  have hF := (ReaderFinished_exec TrimSpace ls Sys.initial s h).2
  refine ⟨?_, ?_, ?_, ?_, ?_, ?_⟩
  · split_ifs at h3 <;> omega
  · split_ifs at h3 <;> omega
  · split_ifs at h3 <;> omega
  · split_ifs at h3 <;> omega
  · intro line s1 hs
    have hr : s.reader = ReaderPc.ReadLine := by
      simp only [step] at hs
      split_ifs at hs with hc
      exact hc
    rw [hr] at h3
    simp at h3
    omega
  · intro hm line
    have hf := hF hm
    simp only [step]
    rcases hf with hf | hf <;> simp [hf]

/-- Witness of C10: the sample interleaving ends with the line reader out of
its loop, and `readline.ReadLine` cannot be called any more. -/
theorem one_line_outstanding_witness :
    exec (fun l => l) sampleSteps Sys.initial =
      some { reader := ReaderPc.restoreOutput, readCode := ReadCodePc.sendNoMoreCode,
             console := ConsolePc.select, havePrompt := false } ∧
    delivered sampleSteps = 1 ∧ released sampleSteps = 1 ∧
    ∀ line, step (fun l => l) (Label.ReadLine line)
      { reader := ReaderPc.restoreOutput, readCode := ReadCodePc.sendNoMoreCode,
        console := ConsolePc.select, havePrompt := false } = none :=
  ⟨rfl, rfl, rfl,
    (one_line_outstanding (fun l => l) sampleSteps
      { reader := ReaderPc.restoreOutput, readCode := ReadCodePc.sendNoMoreCode,
        console := ConsolePc.select, havePrompt := false } rfl).2.2.2.2.2 (by decide)⟩

end Console
